import Mathlib

/-
Verification development for the raindrop synthesis engine
(src/raindrop/raindrop.py).

Modelling conventions for the shallow embedding:
* Python floats are modelled as exact rationals; `int(x)` truncation toward
  zero is `pyInt`, Python integer floor division `//` on naturals is `Nat`
  division and on integers `Int.fdiv`.
* A numpy 2-D float array is a `Mask`: explicit row and column counts plus a
  total data function; only indices below the bounds are meaningful.
* `cv2.circle` with thickness -1 is modelled as filling the closed disc;
  `cv2.ellipse` with thickness -1 is modelled as filling the (rotated)
  closed elliptical region, restricted to the local upper half
  (local y <= 0) when the call passes the 180..360 arc.  The rotation is
  parameterised by the cosine and sine of the angle, passed in as rationals.
* `PIL ImageFilter.GaussianBlur` on a uint8 image is modelled as a
  convolution with an arbitrary kernel function (the Gaussian weights are
  left abstract), with edge-extension sampling, whose per-pixel result is
  rounded and saturated back into the uint8 range 0..255 exactly as the
  uint8 storage of the PIL result forces.
* Every call to the `random` module is modelled as an explicit draw
  parameter; `validXDraws` predicates record the bounds the corresponding
  `random.randint` and `random.uniform` calls guarantee.  Where the code
  takes the cosine or sine of a drawn angle, the embedding carries the
  cosine and sine as rational parameters constrained by c^2 + s^2 = 1.
* `cv2.fisheye.undistortImage` is an external call whose outcome is passed
  in as an `Option`: `none` models the raised exception that the
  `try/except` in `updateTexture` catches, `some w` a successful warp.
-/

/-- Python int(x) for a float x: truncation toward zero. -/
def pyInt (q : ℚ) : ℤ := if 0 ≤ q then ⌊q⌋ else -⌊-q⌋

/-- numpy uint8 cast of a float value: truncate toward zero, wrap mod 256. -/
def npUint8 (q : ℚ) : ℕ := ((pyInt q) % 256).toNat

/-- Rounding and saturating a blur output value into uint8 storage. -/
def u8Round (q : ℚ) : ℕ := (min 255 (max 0 (round q))).toNat

/-- A 2-D numpy array: row count, column count, total data function.
Row index first, column index second, matching `a[i, j]` in numpy. -/
structure Mask where
  rows : ℕ
  cols : ℕ
  data : ℕ → ℕ → ℚ

/-- np.zeros((rows, cols)). -/
def zerosMask (rows cols : ℕ) : Mask := ⟨rows, cols, fun _ _ => 0⟩

/-- cv2.circle(m, (cx,cy), R, v, -1): fill the closed disc of radius R
centered at x = cx, y = cy with value v.  cv2 clips to the array, which the
bounded index ranges of `Mask` express. -/
def cvCircle (m : Mask) (cx cy : ℤ) (R : ℕ) (v : ℚ) : Mask :=
  ⟨m.rows, m.cols, fun i j =>
    if ((j : ℤ) - cx) ^ 2 + ((i : ℤ) - cy) ^ 2 ≤ (R : ℤ) ^ 2 then v
    else m.data i j⟩

/-- cv2.ellipse(m, (cx,cy), (a,b), angle, arcStart, arcEnd, v, -1) for the
two arc ranges the code uses: `fullArc = true` for 0..360, `false` for
180..360 (the local upper half, local y <= 0).  `c` and `s` are the cosine
and sine of the rotation angle. -/
def cvEllipse (m : Mask) (cx cy : ℤ) (a b : ℤ) (c s : ℚ) (fullArc : Bool)
    (v : ℚ) : Mask :=
  ⟨m.rows, m.cols, fun i j =>
    let dx : ℚ := (j : ℚ) - (cx : ℚ)
    let dy : ℚ := (i : ℚ) - (cy : ℚ)
    let lx : ℚ := dx * c + dy * s
    let ly : ℚ := -dx * s + dy * c
    if lx ^ 2 * (b : ℚ) ^ 2 + ly ^ 2 * (a : ℚ) ^ 2 ≤ ((a : ℚ) * (b : ℚ)) ^ 2
        ∧ (fullArc = true ∨ ly ≤ 0) then v
    else m.data i j⟩

/-- Clamp an integer index into 0..n-1 (edge extension for the blur). -/
def clampIdx (n : ℕ) (i : ℤ) : ℕ := (min ((n : ℤ) - 1) (max 0 i)).toNat

/-- Sample a mask at integer coordinates with edge extension. -/
def Mask.sampleEdge (m : Mask) (i j : ℤ) : ℚ :=
  m.data (clampIdx m.rows i) (clampIdx m.cols j)

/-- One output pixel of the modelled PIL GaussianBlur: convolve the
edge-extended image with the kernel `k` over the window of radius `R`, then
round and saturate into uint8 storage. -/
def blurPix (R : ℕ) (k : ℤ → ℤ → ℚ) (m : Mask) (i j : ℕ) : ℚ :=
  ((u8Round (∑ dy ∈ Finset.Icc (-(R : ℤ)) (R : ℤ),
      ∑ dx ∈ Finset.Icc (-(R : ℤ)) (R : ℤ),
        k dx dy * m.sampleEdge ((i : ℤ) + dy) ((j : ℤ) + dx)) : ℕ) : ℚ)

/-- PIL Image.filter(ImageFilter.GaussianBlur(radius = R)) on a uint8
image, Gaussian weights abstracted as `k`. -/
def gaussianBlur (R : ℕ) (k : ℤ → ℤ → ℚ) (m : Mask) : Mask :=
  ⟨m.rows, m.cols, fun i j => blurPix R k m i j⟩

/-- np.uint8(m): cast every entry of a float array to uint8. -/
def npUint8Mask (m : Mask) : Mask :=
  ⟨m.rows, m.cols, fun i j => ((npUint8 (m.data i j) : ℕ) : ℚ)⟩

/-- The list of all in-bounds entries of a mask. -/
def Mask.entries (m : Mask) : List ℚ :=
  (List.range m.rows).flatMap (fun i => (List.range m.cols).map (m.data i))

/-- np.max over the in-bounds entries (0 for an empty array; the code never
takes the max of an empty array when the radius is at least 1). -/
def Mask.maxVal (m : Mask) : ℚ := m.entries.foldr max 0

/-- The in-place update labelmap[labelmap > 0] = 1. -/
def binarizeLabel (m : Mask) : Mask :=
  ⟨m.rows, m.cols, fun i j => if 0 < m.data i j then 1 else m.data i j⟩

/-- raindrop._apply_alpha_map: blur the uint8 cast of the label map with a
Gaussian kernel of drawn radius, normalize the result to 0..255 when its
max is positive and keep all-zero otherwise, and binarize the label map.
Returns (new label map, new alpha map). -/
def apply_alpha_map (blurR : ℕ) (k : ℤ → ℤ → ℚ) (lm : Mask) : Mask × Mask :=
  let blurred := gaussianBlur blurR k (npUint8Mask lm)
  let alpha : Mask :=
    if 0 < blurred.maxVal then
      ⟨blurred.rows, blurred.cols, fun i j => blurred.data i j / blurred.maxVal * 255⟩
    else zerosMask blurred.rows blurred.cols
  (binarizeLabel lm, alpha)

/-- The random draws one satellite circle of _createSplashDrop consumes:
the cosine and sine of angle = random.uniform(0, 2*pi), the distance
randint(main_radius, int(radius*1.5)) and the radius
randint(radius//4, radius//2). -/
structure SatDraw where
  cosA : ℚ
  sinA : ℚ
  distance : ℕ
  satRadius : ℕ

/-- All random draws the procedural constructor can consume, one field per
call site in raindrop.py; `kernel` stands for the (internal) Gaussian
weights of the PIL blur.  Only the fields of the selected shape kind are
read. -/
structure Draws where
  blurRadius : ℕ
  kernel : ℤ → ℤ → ℚ
  defaultAxis : ℕ
  ovalAngle : ℕ
  ovalCos : ℚ
  ovalSin : ℚ
  ovalAspect : ℚ
  tearRatio : ℚ
  tearAxis : ℕ
  tearAngle : ℤ
  tearCos : ℚ
  tearSin : ℚ
  perturbs : List (ℤ × ℤ × ℕ)
  sats : List SatDraw

/-- Bounds blur_radius = random.randint(8, 12) guarantees. -/
def validAlphaDraws (d : Draws) : Prop := 8 ≤ d.blurRadius ∧ d.blurRadius ≤ 12

/-- int(self.radius * 0.7), the main circle radius of the splash shape. -/
def splashMainRadius (r : ℕ) : ℕ := 7 * r / 10

/-- Bounds the satellite draws of _createSplashDrop guarantee: the angle
cosine and sine lie on the unit circle, distance is
randint(main_radius, int(radius*1.5)) and the satellite radius is
randint(radius//4, radius//2). -/
def validSatDraw (r : ℕ) (s : SatDraw) : Prop :=
  s.cosA ^ 2 + s.sinA ^ 2 = 1 ∧
  splashMainRadius r ≤ s.distance ∧ s.distance ≤ 3 * r / 2 ∧
  r / 4 ≤ s.satRadius ∧ s.satRadius ≤ r / 2

/-- Bounds _createSplashDrop draws guarantee: num_satellites =
random.randint(2, 5) many satellites, each drawn within its bounds. -/
def validSplashDraws (r : ℕ) (d : Draws) : Prop :=
  2 ≤ d.sats.length ∧ d.sats.length ≤ 5 ∧ ∀ s ∈ d.sats, validSatDraw r s

/-- Bounds _createOvalDrop draws guarantee: angle = random.randint(0, 180)
(so an integer between 0 and 180 inclusive), the cosine and sine of that
angle on the unit circle, and aspect_ratio = random.uniform(1.2, 2.0). -/
def validOvalDraws (d : Draws) : Prop :=
  d.ovalAngle ≤ 180 ∧ d.ovalCos ^ 2 + d.ovalSin ^ 2 = 1 ∧
  6 / 5 ≤ d.ovalAspect ∧ d.ovalAspect ≤ 2

instance (d : Draws) : Decidable (validAlphaDraws d) := by
  unfold validAlphaDraws
  infer_instance

instance (r : ℕ) (s : SatDraw) : Decidable (validSatDraw r s) := by
  unfold validSatDraw
  infer_instance

instance (r : ℕ) (d : Draws) : Decidable (validSplashDraws r d) := by
  unfold validSplashDraws
  infer_instance

instance (d : Draws) : Decidable (validOvalDraws d) := by
  unfold validOvalDraws
  infer_instance

/-- raindrop._createDefaultDrop drawing steps on the label map: circle of
radius r at (2r, 3r), then the 180..360 arc of the ellipse with axes
(r, int(1.3*sqrt(3)*r)) at angle 0.  `d.defaultAxis` carries the value of
int(1.3*sqrt(3)*r). -/
def createDefaultDrop (r : ℕ) (d : Draws) (m : Mask) : Mask :=
  cvEllipse (cvCircle m (2 * r) (3 * r) r 128)
    (2 * r) (3 * r) (r : ℤ) (d.defaultAxis : ℤ) 1 0 false 128

/-- raindrop._createRoundDrop drawing step: circle of radius r at (2r, 2r). -/
def createRoundDrop (r : ℕ) (_d : Draws) (m : Mask) : Mask :=
  cvCircle m (2 * r) (2 * r) r 128

/-- raindrop._createOvalDrop drawing step: full ellipse at (2r, 2r) with
axes (r, int(r * aspect_ratio)), rotated by the drawn angle (carried as its
cosine and sine). -/
def createOvalDrop (r : ℕ) (d : Draws) (m : Mask) : Mask :=
  cvEllipse m (2 * r) (2 * r) (r : ℤ) (pyInt ((r : ℚ) * d.ovalAspect))
    d.ovalCos d.ovalSin true 128

/-- raindrop._createTeardropDrop drawing steps: circle of radius r at
(2r, 3r), then the 180..360 arc of the ellipse with axes
(r, int(ellipse_ratio*sqrt(3)*r)) rotated by angle_variation =
randint(-15, 15); `d.tearAxis` carries the int() value and `d.tearCos`,
`d.tearSin` the cosine and sine of the rotation. -/
def createTeardropDrop (r : ℕ) (d : Draws) (m : Mask) : Mask :=
  cvEllipse (cvCircle m (2 * r) (3 * r) r 128)
    (2 * r) (3 * r) (r : ℤ) (d.tearAxis : ℤ) d.tearCos d.tearSin false 128

/-- raindrop._createIrregularDrop drawing steps: one circle per drawn
perturbation (offset_x, offset_y, perturb_radius) centered at
(2r + offset_x, 2r + offset_y). -/
def createIrregularDrop (r : ℕ) (d : Draws) (m : Mask) : Mask :=
  d.perturbs.foldl
    (fun acc p => cvCircle acc (2 * (r : ℤ) + p.1) (2 * (r : ℤ) + p.2.1) p.2.2 128)
    m

/-- The x coordinate int(radius*2 + distance*cos(angle)) of a satellite. -/
def satX (r : ℕ) (s : SatDraw) : ℤ := pyInt ((2 * r : ℚ) + (s.distance : ℚ) * s.cosA)

/-- The y coordinate int(radius*2 + distance*sin(angle)) of a satellite. -/
def satY (r : ℕ) (s : SatDraw) : ℤ := pyInt ((2 * r : ℚ) + (s.distance : ℚ) * s.sinA)

/-- One iteration of the satellite loop of _createSplashDrop: draw the
satellite circle when its center (sat_x, sat_y) lies inside the array
bounds (0 <= sat_x < shape[1] and 0 <= sat_y < shape[0]), else skip it. -/
def splashStep (r : ℕ) (acc : Mask) (s : SatDraw) : Mask :=
  if 0 ≤ satX r s ∧ satX r s < (acc.cols : ℤ) ∧
      0 ≤ satY r s ∧ satY r s < (acc.rows : ℤ) then
    cvCircle acc (satX r s) (satY r s) s.satRadius 128
  else acc

/-- raindrop._createSplashDrop drawing steps: main circle of radius
int(radius*0.7) at (2r, 2r), then one satellite loop iteration per drawn
satellite. -/
def createSplashDrop (r : ℕ) (d : Draws) (m : Mask) : Mask :=
  d.sats.foldl (splashStep r)
    (cvCircle m (2 * r) (2 * r) (splashMainRadius r) 128)

/-- raindrop._create_label dispatch on the shape kind string, applied to
the all-zero label map np.zeros((radius*5, radius*4)) the constructor
allocates; unknown kinds fall back to the default shape.  (In the source
each branch ends by calling _apply_alpha_map; the embedding factors that
shared call out into the constructor, after the dispatch.) -/
def create_label (r : ℕ) (t : String) (d : Draws) : Mask :=
  let m := zerosMask (r * 5) (r * 4)
  if t = "default" then createDefaultDrop r d m
  else if t = "round" then createRoundDrop r d m
  else if t = "oval" then createOvalDrop r d m
  else if t = "teardrop" then createTeardropDrop r d m
  else if t = "irregular" then createIrregularDrop r d m
  else if t = "splash" then createSplashDrop r d m
  else createDefaultDrop r d m

/-- A 3-channel uint8 image (the background patch handed to
updateTexture). -/
structure Img3 where
  rows : ℕ
  cols : ℕ
  data : ℕ → ℕ → ℚ × ℚ × ℚ

/-- A 4-channel RGBA image (the texture tile). -/
structure Img4 where
  rows : ℕ
  cols : ℕ
  data : ℕ → ℕ → ℚ × ℚ × ℚ × ℚ

/-- One channel of an Img3 as a Mask, to reuse the blur model. -/
def Img3.chan (img : Img3) (f : ℚ × ℚ × ℚ → ℚ) : Mask :=
  ⟨img.rows, img.cols, fun i j => f (img.data i j)⟩

/-- np.uint8(bg) for a 3-channel image. -/
def npUint8Img3 (img : Img3) : Img3 :=
  ⟨img.rows, img.cols, fun i j =>
    (((npUint8 (img.data i j).1 : ℕ) : ℚ),
     ((npUint8 (img.data i j).2.1 : ℕ) : ℚ),
     ((npUint8 (img.data i j).2.2 : ℕ) : ℚ))⟩

/-- PIL GaussianBlur on a 3-channel uint8 image, channel by channel. -/
def gaussianBlur3 (R : ℕ) (k : ℤ → ℤ → ℚ) (img : Img3) : Img3 :=
  ⟨img.rows, img.cols, fun i j =>
    (blurPix R k (img.chan (fun p => p.1)) i j,
     blurPix R k (img.chan (fun p => p.2.1)) i j,
     blurPix R k (img.chan (fun p => p.2.2)) i j)⟩

/-- cv2.resize(img, (w, h)): an image of h rows and w columns sampled from
img.  The claims only use the output dimensions, so the interpolation
(bilinear in cv2) is modelled as index scaling. -/
def cvResize (img : Img3) (w h : ℕ) : Img3 :=
  ⟨h, w, fun i j => img.data (i * img.rows / h) (j * img.cols / w)⟩

/-- The droplet entity (class raindrop).  `dtype` is the attribute
self.type, absent (none) when the droplet is built from a supplied mask
pair; `center` is None in Python when not passed. -/
structure Droplet where
  key : ℕ
  ifcol : Bool
  col_with : List ℕ
  center : Option (ℤ × ℤ)
  radius : ℕ
  dtype : Option String
  labelmap : Mask
  alphamap : Mask
  background : Option Img3
  texture : Option Img4
  use_label : Bool

/-- raindrop.__init__ without input_label: the procedural branch.  The
label and alpha maps start as np.zeros((radius*5, radius*4)); _create_label
draws the selected shape into the label map and _apply_alpha_map then
derives the alpha map and binarizes the label map.  `t` is the drawn or
caller-given droplet_type, `d` the random draws. -/
def mkDropletProcedural (key : ℕ) (center : Option (ℤ × ℤ)) (r : ℕ)
    (t : String) (d : Draws) : Droplet :=
  let pair := apply_alpha_map d.blurRadius d.kernel (create_label r t d)
  { key := key
    ifcol := false
    col_with := []
    center := center
    radius := r
    dtype := some t
    labelmap := pair.1
    alphamap := pair.2
    background := none
    texture := none
    use_label := false }

/-- raindrop.__init__ with a caller-supplied (input_alpha, input_label)
pair: the masks are stored as given (no rasterization) and the radius is
min(w // 4, h // 4) of the supplied label map of shape (h, w). -/
def mkDropletFromMasks (key : ℕ) (center : Option (ℤ × ℤ))
    (input_alpha input_label : Mask) : Droplet :=
  { key := key
    ifcol := false
    col_with := []
    center := center
    radius := min (input_label.cols / 4) (input_label.rows / 4)
    dtype := none
    labelmap := input_label
    alphamap := input_alpha
    background := none
    texture := none
    use_label := true }

/-- raindrop.setCollision(col, col_with). -/
def setCollision (dr : Droplet) (col : Bool) (colWith : List ℕ) : Droplet :=
  { dr with ifcol := col, col_with := colWith }

/-- raindrop.setKey(key). -/
def setKey (dr : Droplet) (key : ℕ) : Droplet := { dr with key := key }

/-- raindrop.updateTexture(bg).  `k` abstracts the Gaussian weights of the
radius-5 PIL blur; `fisheyeResult` is the outcome of the external
cv2.fisheye.undistortImage call, `none` when it raises (the except branch
falls back to the unwarped blurred patch fg).  The patch is resized to the
alpha map shape when the shapes differ, the uint8 alpha map becomes the
fourth channel, and the tile is flipped top-bottom. -/
def updateTexture (dr : Droplet) (k : ℤ → ℤ → ℚ) (bg : Img3)
    (fisheyeResult : Option Img3) : Droplet :=
  let fg := gaussianBlur3 5 k (npUint8Img3 bg)
  let fisheye : Img3 :=
    match fisheyeResult with
    | some w => w
    | none => fg
  let th := dr.alphamap.rows
  let tw := dr.alphamap.cols
  let fisheye2 : Img3 :=
    if fisheye.rows = th ∧ fisheye.cols = tw then fisheye
    else cvResize fisheye tw th
  let tex : Img4 :=
    ⟨th, tw, fun i j =>
      ((fisheye2.data (th - 1 - i) j).1,
       (fisheye2.data (th - 1 - i) j).2.1,
       (fisheye2.data (th - 1 - i) j).2.2,
       ((npUint8 (dr.alphamap.data (th - 1 - i) j) : ℕ) : ℚ))⟩
  { dr with texture := some tex }

/- Helper lemmas: dimension preservation. -/

theorem foldl_mask_rows {α : Type} (f : Mask → α → Mask)
    (h : ∀ m a, (f m a).rows = m.rows) :
    ∀ (l : List α) (m : Mask), (l.foldl f m).rows = m.rows := by
  intro l
  induction l with
  | nil => intro m; rfl
  | cons x xs ih => intro m; rw [List.foldl_cons, ih (f m x), h m x]

theorem foldl_mask_cols {α : Type} (f : Mask → α → Mask)
    (h : ∀ m a, (f m a).cols = m.cols) :
    ∀ (l : List α) (m : Mask), (l.foldl f m).cols = m.cols := by
  intro l
  induction l with
  | nil => intro m; rfl
  | cons x xs ih => intro m; rw [List.foldl_cons, ih (f m x), h m x]

theorem createIrregularDrop_rows (r : ℕ) (d : Draws) (m : Mask) :
    (createIrregularDrop r d m).rows = m.rows := by
  unfold createIrregularDrop
  apply foldl_mask_rows
  intro m a
  rfl

theorem createIrregularDrop_cols (r : ℕ) (d : Draws) (m : Mask) :
    (createIrregularDrop r d m).cols = m.cols := by
  unfold createIrregularDrop
  apply foldl_mask_cols
  intro m a
  rfl

theorem splashStep_rows (r : ℕ) (m : Mask) (s : SatDraw) :
    (splashStep r m s).rows = m.rows := by
  unfold splashStep
  split <;> rfl

theorem splashStep_cols (r : ℕ) (m : Mask) (s : SatDraw) :
    (splashStep r m s).cols = m.cols := by
  unfold splashStep
  split <;> rfl

theorem createSplashDrop_rows (r : ℕ) (d : Draws) (m : Mask) :
    (createSplashDrop r d m).rows = m.rows := by
  unfold createSplashDrop
  apply foldl_mask_rows
  intro m a
  exact splashStep_rows r m a

theorem createSplashDrop_cols (r : ℕ) (d : Draws) (m : Mask) :
    (createSplashDrop r d m).cols = m.cols := by
  unfold createSplashDrop
  apply foldl_mask_cols
  intro m a
  exact splashStep_cols r m a

theorem create_label_rows (r : ℕ) (t : String) (d : Draws) :
    (create_label r t d).rows = r * 5 := by
  unfold create_label
  dsimp only
  split
  · rfl
  split
  · rfl
  split
  · rfl
  split
  · rfl
  split
  · exact createIrregularDrop_rows r d _
  split
  · exact createSplashDrop_rows r d _
  · rfl

theorem create_label_cols (r : ℕ) (t : String) (d : Draws) :
    (create_label r t d).cols = r * 4 := by
  unfold create_label
  dsimp only
  split
  · rfl
  split
  · rfl
  split
  · rfl
  split
  · rfl
  split
  · exact createIrregularDrop_cols r d _
  split
  · exact createSplashDrop_cols r d _
  · rfl

theorem apply_alpha_map_label_rows (b : ℕ) (k : ℤ → ℤ → ℚ) (lm : Mask) :
    (apply_alpha_map b k lm).1.rows = lm.rows := rfl

theorem apply_alpha_map_label_cols (b : ℕ) (k : ℤ → ℤ → ℚ) (lm : Mask) :
    (apply_alpha_map b k lm).1.cols = lm.cols := rfl

theorem apply_alpha_map_alpha_rows (b : ℕ) (k : ℤ → ℤ → ℚ) (lm : Mask) :
    (apply_alpha_map b k lm).2.rows = lm.rows := by
  unfold apply_alpha_map
  dsimp only
  split <;> rfl

theorem apply_alpha_map_alpha_cols (b : ℕ) (k : ℤ → ℤ → ℚ) (lm : Mask) :
    (apply_alpha_map b k lm).2.cols = lm.cols := by
  unfold apply_alpha_map
  dsimp only
  split <;> rfl

/- Helper lemmas: max over the entries. -/

theorem mem_le_foldr_max (l : List ℚ) (c : ℚ) {a : ℚ} (h : a ∈ l) :
    a ≤ l.foldr max c := by
  induction l with
  | nil => cases h
  | cons b t ih =>
    rcases List.mem_cons.mp h with rfl | ht
    · exact le_max_left _ _
    · exact le_trans (ih ht) (le_max_right _ _)

theorem foldr_max_zero_of_all_zero (l : List ℚ) (h : ∀ a ∈ l, a = 0) :
    l.foldr max 0 = 0 := by
  induction l with
  | nil => rfl
  | cons b t ih =>
    have hb := h b (List.mem_cons_self b t)
    have ht := ih (fun a ha => h a (List.mem_cons_of_mem _ ha))
    simp [hb, ht]

theorem Mask.data_mem_entries (m : Mask) {i j : ℕ}
    (hi : i < m.rows) (hj : j < m.cols) : m.data i j ∈ m.entries := by
  unfold Mask.entries
  refine List.mem_flatMap.mpr ⟨i, List.mem_range.mpr hi, ?_⟩
  exact List.mem_map.mpr ⟨j, List.mem_range.mpr hj, rfl⟩

theorem Mask.data_le_maxVal (m : Mask) {i j : ℕ}
    (hi : i < m.rows) (hj : j < m.cols) : m.data i j ≤ m.maxVal :=
  mem_le_foldr_max _ _ (m.data_mem_entries hi hj)

theorem Mask.maxVal_zero_of_all_zero (m : Mask)
    (h : ∀ i < m.rows, ∀ j < m.cols, m.data i j = 0) : m.maxVal = 0 := by
  apply foldr_max_zero_of_all_zero
  intro a ha
  unfold Mask.entries at ha
  rcases List.mem_flatMap.mp ha with ⟨i, hi, hmem⟩
  rcases List.mem_map.mp hmem with ⟨j, hj, rfl⟩
  exact h i (List.mem_range.mp hi) j (List.mem_range.mp hj)

/- Helper lemmas: value ranges. -/

theorem u8Round_le (q : ℚ) : u8Round q ≤ 255 := by
  unfold u8Round
  have h : min 255 (max 0 (round q)) ≤ (255 : ℤ) := min_le_left _ _
  omega

theorem blur_data_nonneg (R : ℕ) (k : ℤ → ℤ → ℚ) (m : Mask) (i j : ℕ) :
    0 ≤ (gaussianBlur R k m).data i j := by
  exact Nat.cast_nonneg _

theorem blur_data_le (R : ℕ) (k : ℤ → ℤ → ℚ) (m : Mask) (i j : ℕ) :
    (gaussianBlur R k m).data i j ≤ 255 := by
  show ((u8Round _ : ℕ) : ℚ) ≤ 255
  have h := u8Round_le (∑ dy ∈ Finset.Icc (-(R : ℤ)) (R : ℤ),
      ∑ dx ∈ Finset.Icc (-(R : ℤ)) (R : ℤ),
        k dx dy * m.sampleEdge ((i : ℤ) + dy) ((j : ℤ) + dx))
  exact_mod_cast h

/-- The values a drawing step can leave in the label map. -/
def maskBin (m : Mask) : Prop := ∀ i j, m.data i j = 0 ∨ m.data i j = 128

theorem maskBin_zeros (rows cols : ℕ) : maskBin (zerosMask rows cols) :=
  fun _ _ => Or.inl rfl

theorem maskBin_cvCircle (m : Mask) (cx cy : ℤ) (R : ℕ) (h : maskBin m) :
    maskBin (cvCircle m cx cy R 128) := by
  intro i j
  unfold cvCircle
  dsimp only
  split
  · exact Or.inr rfl
  · exact h i j

theorem maskBin_cvEllipse (m : Mask) (cx cy a b : ℤ) (c s : ℚ)
    (fullArc : Bool) (h : maskBin m) :
    maskBin (cvEllipse m cx cy a b c s fullArc 128) := by
  intro i j
  unfold cvEllipse
  dsimp only
  split
  · exact Or.inr rfl
  · exact h i j

theorem maskBin_foldl {α : Type} (f : Mask → α → Mask)
    (h : ∀ m a, maskBin m → maskBin (f m a)) :
    ∀ (l : List α) (m : Mask), maskBin m → maskBin (l.foldl f m) := by
  intro l
  induction l with
  | nil => intro m hm; exact hm
  | cons x xs ih => intro m hm; rw [List.foldl_cons]; exact ih (f m x) (h m x hm)

theorem maskBin_create_label (r : ℕ) (t : String) (d : Draws) :
    maskBin (create_label r t d) := by
  have hz := maskBin_zeros (r * 5) (r * 4)
  unfold create_label
  dsimp only
  split
  · exact maskBin_cvEllipse _ _ _ _ _ _ _ _ (maskBin_cvCircle _ _ _ _ hz)
  split
  · exact maskBin_cvCircle _ _ _ _ hz
  split
  · exact maskBin_cvEllipse _ _ _ _ _ _ _ _ hz
  split
  · exact maskBin_cvEllipse _ _ _ _ _ _ _ _ (maskBin_cvCircle _ _ _ _ hz)
  split
  · exact maskBin_foldl _ (fun m a hm => maskBin_cvCircle _ _ _ _ hm) _ _ hz
  split
  · refine maskBin_foldl _ (fun m a hm => ?_) _ _ (maskBin_cvCircle _ _ _ _ hz)
    unfold splashStep
    split
    · exact maskBin_cvCircle _ _ _ _ hm
    · exact hm
  · exact maskBin_cvEllipse _ _ _ _ _ _ _ _ (maskBin_cvCircle _ _ _ _ hz)

theorem apply_alpha_map_alpha_range (b : ℕ) (k : ℤ → ℤ → ℚ) (lm : Mask)
    (i j : ℕ) (hi : i < lm.rows) (hj : j < lm.cols) :
    0 ≤ (apply_alpha_map b k lm).2.data i j ∧
    (apply_alpha_map b k lm).2.data i j ≤ 255 := by
  unfold apply_alpha_map
  dsimp only
  split
  case isTrue hmx =>
    have hv0 : 0 ≤ (gaussianBlur b k (npUint8Mask lm)).data i j :=
      blur_data_nonneg _ _ _ _ _
    have hvle : (gaussianBlur b k (npUint8Mask lm)).data i j ≤
        (gaussianBlur b k (npUint8Mask lm)).maxVal :=
      Mask.data_le_maxVal _ hi hj
    constructor
    · exact mul_nonneg (div_nonneg hv0 (le_of_lt hmx)) (by norm_num)
    · have h1 : (gaussianBlur b k (npUint8Mask lm)).data i j /
          (gaussianBlur b k (npUint8Mask lm)).maxVal ≤ 1 :=
        (div_le_one hmx).mpr hvle
      calc (gaussianBlur b k (npUint8Mask lm)).data i j /
            (gaussianBlur b k (npUint8Mask lm)).maxVal * 255
          ≤ 1 * 255 := mul_le_mul_of_nonneg_right h1 (by norm_num)
        _ = 255 := one_mul _
  case isFalse hmx =>
    constructor
    · simp [zerosMask]
    · simp [zerosMask]

theorem apply_alpha_map_alpha_zero (b : ℕ) (k : ℤ → ℤ → ℚ) (lm : Mask)
    (h : ∀ i < lm.rows, ∀ j < lm.cols,
      (gaussianBlur b k (npUint8Mask lm)).data i j = 0) :
    ∀ i j, (apply_alpha_map b k lm).2.data i j = 0 := by
  have hmx : (gaussianBlur b k (npUint8Mask lm)).maxVal = 0 :=
    Mask.maxVal_zero_of_all_zero _ h
  intro i j
  unfold apply_alpha_map
  dsimp only
  rw [hmx]
  simp [zerosMask]

/-- A concrete draw bundle lying within all the randint and uniform bounds
of the source, used to instantiate the hypothesis-bearing theorems. -/
def sampleDraws : Draws :=
  { blurRadius := 8
    kernel := fun _ _ => 0
    defaultAxis := 2
    ovalAngle := 0
    ovalCos := 1
    ovalSin := 0
    ovalAspect := 3 / 2
    tearRatio := 13 / 10
    tearAxis := 2
    tearAngle := 0
    tearCos := 1
    tearSin := 0
    perturbs := []
    sats := [⟨1, 0, 0, 0⟩, ⟨1, 0, 0, 0⟩] }

/- Claim theorems. -/

/-- C2: for every procedurally generated droplet of radius r, regardless of
which of the six shape kinds is used, labelMask and alphaMask both have
exactly 5r rows and 4r columns after rasterization. -/
theorem c2_procedural_mask_dims (key : ℕ) (c : Option (ℤ × ℤ)) (r : ℕ)
    (t : String) (d : Draws) (hr : 1 ≤ r)
    (ht : t ∈ ["default", "round", "oval", "teardrop", "irregular", "splash"]) :
    (mkDropletProcedural key c r t d).labelmap.rows = 5 * r ∧
    (mkDropletProcedural key c r t d).labelmap.cols = 4 * r ∧
    (mkDropletProcedural key c r t d).alphamap.rows = 5 * r ∧
    (mkDropletProcedural key c r t d).alphamap.cols = 4 * r := by
  refine ⟨?_, ?_, ?_, ?_⟩
  · show (apply_alpha_map d.blurRadius d.kernel (create_label r t d)).1.rows = 5 * r
    rw [apply_alpha_map_label_rows, create_label_rows, Nat.mul_comm]
  · show (apply_alpha_map d.blurRadius d.kernel (create_label r t d)).1.cols = 4 * r
    rw [apply_alpha_map_label_cols, create_label_cols, Nat.mul_comm]
  · show (apply_alpha_map d.blurRadius d.kernel (create_label r t d)).2.rows = 5 * r
    rw [apply_alpha_map_alpha_rows, create_label_rows, Nat.mul_comm]
  · show (apply_alpha_map d.blurRadius d.kernel (create_label r t d)).2.cols = 4 * r
    rw [apply_alpha_map_alpha_cols, create_label_cols, Nat.mul_comm]

/-- Witness for C2 at radius 1 and the round shape. -/
theorem c2_procedural_mask_dims_witness :
    1 ≤ 1 ∧
    "round" ∈ ["default", "round", "oval", "teardrop", "irregular", "splash"] ∧
    ((mkDropletProcedural 0 none 1 "round" sampleDraws).labelmap.rows = 5 * 1 ∧
     (mkDropletProcedural 0 none 1 "round" sampleDraws).labelmap.cols = 4 * 1 ∧
     (mkDropletProcedural 0 none 1 "round" sampleDraws).alphamap.rows = 5 * 1 ∧
     (mkDropletProcedural 0 none 1 "round" sampleDraws).alphamap.cols = 4 * 1) :=
  ⟨by decide, by decide,
    c2_procedural_mask_dims 0 none 1 "round" sampleDraws (by decide) (by decide)⟩

/-- C1 (amended): a procedurally constructed droplet always has labelMask
and alphaMask of identical dimensions, and setCollision and updateTexture
leave both masks unchanged; a droplet built from a caller-supplied
(alphaMask, labelMask) pair stores the two masks unchecked, so its masks
have identical dimensions exactly when the supplied pair does. -/
theorem c1_mask_dims_invariant :
    (∀ (key : ℕ) (c : Option (ℤ × ℤ)) (r : ℕ) (t : String) (d : Draws),
      1 ≤ r →
      (mkDropletProcedural key c r t d).labelmap.rows =
        (mkDropletProcedural key c r t d).alphamap.rows ∧
      (mkDropletProcedural key c r t d).labelmap.cols =
        (mkDropletProcedural key c r t d).alphamap.cols) ∧
    (∀ (key : ℕ) (c : Option (ℤ × ℤ)) (a l : Mask),
      a.rows = l.rows → a.cols = l.cols →
      (mkDropletFromMasks key c a l).labelmap.rows =
        (mkDropletFromMasks key c a l).alphamap.rows ∧
      (mkDropletFromMasks key c a l).labelmap.cols =
        (mkDropletFromMasks key c a l).alphamap.cols) ∧
    (∀ (dr : Droplet) (b : Bool) (w : List ℕ),
      (setCollision dr b w).labelmap = dr.labelmap ∧
      (setCollision dr b w).alphamap = dr.alphamap) ∧
    (∀ (dr : Droplet) (k : ℤ → ℤ → ℚ) (bg : Img3) (fe : Option Img3),
      (updateTexture dr k bg fe).labelmap = dr.labelmap ∧
      (updateTexture dr k bg fe).alphamap = dr.alphamap) := by
  refine ⟨?_, ?_, ?_, ?_⟩
  · intro key c r t d _
    constructor
    · show (apply_alpha_map d.blurRadius d.kernel (create_label r t d)).1.rows =
        (apply_alpha_map d.blurRadius d.kernel (create_label r t d)).2.rows
      rw [apply_alpha_map_label_rows, apply_alpha_map_alpha_rows]
    · show (apply_alpha_map d.blurRadius d.kernel (create_label r t d)).1.cols =
        (apply_alpha_map d.blurRadius d.kernel (create_label r t d)).2.cols
      rw [apply_alpha_map_label_cols, apply_alpha_map_alpha_cols]
  · intro key c a l h1 h2
    exact ⟨h1.symm, h2.symm⟩
  · intro dr b w
    exact ⟨rfl, rfl⟩
  · intro dr k bg fe
    exact ⟨rfl, rfl⟩

/-- Witness for C1 at a radius-1 procedural droplet and a matching supplied
pair. -/
theorem c1_mask_dims_invariant_witness :
    1 ≤ 1 ∧
    ((mkDropletProcedural 0 none 1 "round" sampleDraws).labelmap.rows =
      (mkDropletProcedural 0 none 1 "round" sampleDraws).alphamap.rows ∧
     (mkDropletProcedural 0 none 1 "round" sampleDraws).labelmap.cols =
      (mkDropletProcedural 0 none 1 "round" sampleDraws).alphamap.cols) ∧
    ((mkDropletFromMasks 0 none (zerosMask 5 4) (zerosMask 5 4)).labelmap.rows =
      (mkDropletFromMasks 0 none (zerosMask 5 4) (zerosMask 5 4)).alphamap.rows) :=
  ⟨by decide,
   c1_mask_dims_invariant.1 0 none 1 "round" sampleDraws (by decide),
   (c1_mask_dims_invariant.2.1 0 none (zerosMask 5 4) (zerosMask 5 4) rfl rfl).1⟩

/-- Counterexample to C1 as stated: the supplied-mask constructor performs
no dimension check, so a droplet built from a 1x1 alpha mask and a 2x2
label mask has masks of different dimensions. -/
theorem c1_counterexample :
    (mkDropletFromMasks 0 none (zerosMask 1 1) (zerosMask 2 2)).labelmap.rows ≠
    (mkDropletFromMasks 0 none (zerosMask 1 1) (zerosMask 2 2)).alphamap.rows := by
  decide

/-- C3: for every procedurally generated droplet, after rasterization every
labelMask value is 0 or 1, every in-bounds alphaMask value lies in
[0, 255], and if the Gaussian-blurred mask is all-zero then the alphaMask
is all-zero. -/
theorem c3_label_alpha_value_ranges (key : ℕ) (c : Option (ℤ × ℤ)) (r : ℕ)
    (t : String) (d : Draws) (hr : 1 ≤ r) (hb : validAlphaDraws d) :
    (∀ i j, (mkDropletProcedural key c r t d).labelmap.data i j = 0 ∨
      (mkDropletProcedural key c r t d).labelmap.data i j = 1) ∧
    (∀ i j, i < 5 * r → j < 4 * r →
      0 ≤ (mkDropletProcedural key c r t d).alphamap.data i j ∧
      (mkDropletProcedural key c r t d).alphamap.data i j ≤ 255) ∧
    ((∀ i, i < 5 * r → ∀ j, j < 4 * r →
        (gaussianBlur d.blurRadius d.kernel
          (npUint8Mask (create_label r t d))).data i j = 0) →
      ∀ i j, (mkDropletProcedural key c r t d).alphamap.data i j = 0) := by
  refine ⟨?_, ?_, ?_⟩
  · intro i j
    show (binarizeLabel (create_label r t d)).data i j = 0 ∨
      (binarizeLabel (create_label r t d)).data i j = 1
    unfold binarizeLabel
    dsimp only
    rcases maskBin_create_label r t d i j with h | h
    · rw [h]
      norm_num
    · rw [h]
      norm_num
  · intro i j hi hj
    show 0 ≤ (apply_alpha_map d.blurRadius d.kernel (create_label r t d)).2.data i j ∧
      (apply_alpha_map d.blurRadius d.kernel (create_label r t d)).2.data i j ≤ 255
    have hi2 : i < (create_label r t d).rows := by
      rw [create_label_rows, Nat.mul_comm]; exact hi
    have hj2 : j < (create_label r t d).cols := by
      rw [create_label_cols, Nat.mul_comm]; exact hj
    exact apply_alpha_map_alpha_range _ _ _ i j hi2 hj2
  · intro h i j
    show (apply_alpha_map d.blurRadius d.kernel (create_label r t d)).2.data i j = 0
    apply apply_alpha_map_alpha_zero
    intro i2 hi2 j2 hj2
    apply h i2
    · rw [create_label_rows, Nat.mul_comm] at hi2; exact hi2
    · rw [create_label_cols, Nat.mul_comm] at hj2; exact hj2

/-- Witness for C3 at radius 1 and the round shape. -/
theorem c3_label_alpha_value_ranges_witness :
    1 ≤ 1 ∧ validAlphaDraws sampleDraws ∧
    (∀ i j, (mkDropletProcedural 0 none 1 "round" sampleDraws).labelmap.data i j = 0 ∨
      (mkDropletProcedural 0 none 1 "round" sampleDraws).labelmap.data i j = 1) :=
  ⟨by decide, by decide,
    (c3_label_alpha_value_ranges 0 none 1 "round" sampleDraws (by decide)
      (by decide)).1⟩

/-- C4: a droplet built from a caller-supplied (alphaMask, labelMask) pair
keeps both masks unchanged (no rasterization) and takes radius
min(width // 4, height // 4) of the supplied label mask; a 200x160 pair
yields radius 40. -/
theorem c4_supplied_mask_radius (key : ℕ) (c : Option (ℤ × ℤ)) (a l : Mask) :
    (mkDropletFromMasks key c a l).labelmap = l ∧
    (mkDropletFromMasks key c a l).alphamap = a ∧
    (mkDropletFromMasks key c a l).radius = min (l.cols / 4) (l.rows / 4) ∧
    (l.rows = 200 → l.cols = 160 → (mkDropletFromMasks key c a l).radius = 40) := by
  refine ⟨rfl, rfl, rfl, ?_⟩
  intro h1 h2
  show min (l.cols / 4) (l.rows / 4) = 40
  rw [h1, h2]
  decide

/-- Witness for C4 at a concrete 200x160 pair. -/
theorem c4_supplied_mask_radius_witness :
    (zerosMask 200 160).rows = 200 ∧ (zerosMask 200 160).cols = 160 ∧
    (mkDropletFromMasks 0 none (zerosMask 200 160) (zerosMask 200 160)).radius = 40 :=
  ⟨rfl, rfl,
    (c4_supplied_mask_radius 0 none (zerosMask 200 160) (zerosMask 200 160)).2.2.2
      rfl rfl⟩

/-- C8 (amended): a procedural droplet has exactly the caller-given radius,
and a droplet built from a supplied mask pair has radius
min(w // 4, h // 4), which is positive exactly when the label mask has at
least 4 rows and 4 columns; for smaller supplied masks the radius is 0. -/
theorem c8_radius_amended :
    (∀ (key : ℕ) (c : Option (ℤ × ℤ)) (r : ℕ) (t : String) (d : Draws),
      (mkDropletProcedural key c r t d).radius = r) ∧
    (∀ (key : ℕ) (c : Option (ℤ × ℤ)) (a l : Mask),
      1 ≤ (mkDropletFromMasks key c a l).radius ↔ 4 ≤ l.rows ∧ 4 ≤ l.cols) := by
  constructor
  · intro key c r t d
    rfl
  · intro key c a l
    show 1 ≤ min (l.cols / 4) (l.rows / 4) ↔ 4 ≤ l.rows ∧ 4 ≤ l.cols
    omega

/-- Counterexample to C8 as stated: a supplied 3x3 mask pair (dimensions
the claim explicitly allows) produces radius 0, not a positive integer. -/
theorem c8_counterexample :
    (mkDropletFromMasks 0 none (zerosMask 3 3) (zerosMask 3 3)).radius = 0 := by
  decide

/-- C9: setCollision changes only the collision fields; the masks, center,
radius, key, shape kind, texture and use_label flag are untouched, and
updateTexture also leaves both masks unchanged. -/
theorem c9_setCollision_frame (dr : Droplet) (b : Bool) (w : List ℕ)
    (k : ℤ → ℤ → ℚ) (bg : Img3) (fe : Option Img3) :
    (setCollision dr b w).ifcol = b ∧
    (setCollision dr b w).col_with = w ∧
    (setCollision dr b w).labelmap = dr.labelmap ∧
    (setCollision dr b w).alphamap = dr.alphamap ∧
    (setCollision dr b w).center = dr.center ∧
    (setCollision dr b w).radius = dr.radius ∧
    (setCollision dr b w).key = dr.key ∧
    (setCollision dr b w).dtype = dr.dtype ∧
    (setCollision dr b w).texture = dr.texture ∧
    (setCollision dr b w).use_label = dr.use_label ∧
    (updateTexture dr k bg fe).labelmap = dr.labelmap ∧
    (updateTexture dr k bg fe).alphamap = dr.alphamap :=
  ⟨rfl, rfl, rfl, rfl, rfl, rfl, rfl, rfl, rfl, rfl, rfl, rfl⟩

/-- The six supported shape kind strings of _create_label. -/
def supportedShapes : List String :=
  ["default", "round", "oval", "teardrop", "irregular", "splash"]

/-- C10: a procedural droplet whose shape kind string is none of the six
supported morphologies is silently rasterized with the default (classic
teardrop) morphology: the dispatch returns the default drawing, and the
resulting masks agree with those of an otherwise identical droplet of kind
"default". -/
theorem c10_unknown_shape_falls_back (key : ℕ) (c : Option (ℤ × ℤ)) (r : ℕ)
    (t : String) (d : Draws) (h : t ∉ supportedShapes) :
    create_label r t d = createDefaultDrop r d (zerosMask (r * 5) (r * 4)) ∧
    (mkDropletProcedural key c r t d).labelmap =
      (mkDropletProcedural key c r "default" d).labelmap ∧
    (mkDropletProcedural key c r t d).alphamap =
      (mkDropletProcedural key c r "default" d).alphamap := by
  have h1 : t ≠ "default" := fun he => h (by rw [he]; simp [supportedShapes])
  have h2 : t ≠ "round" := fun he => h (by rw [he]; simp [supportedShapes])
  have h3 : t ≠ "oval" := fun he => h (by rw [he]; simp [supportedShapes])
  have h4 : t ≠ "teardrop" := fun he => h (by rw [he]; simp [supportedShapes])
  have h5 : t ≠ "irregular" := fun he => h (by rw [he]; simp [supportedShapes])
  have h6 : t ≠ "splash" := fun he => h (by rw [he]; simp [supportedShapes])
  have hc : create_label r t d = createDefaultDrop r d (zerosMask (r * 5) (r * 4)) := by
    unfold create_label
    dsimp only
    rw [if_neg h1, if_neg h2, if_neg h3, if_neg h4, if_neg h5, if_neg h6]
  have hd : create_label r "default" d =
      createDefaultDrop r d (zerosMask (r * 5) (r * 4)) := by
    unfold create_label
    dsimp only
    rw [if_pos rfl]
  refine ⟨hc, ?_, ?_⟩
  · show (apply_alpha_map d.blurRadius d.kernel (create_label r t d)).1 =
      (apply_alpha_map d.blurRadius d.kernel (create_label r "default" d)).1
    rw [hc, hd]
  · show (apply_alpha_map d.blurRadius d.kernel (create_label r t d)).2 =
      (apply_alpha_map d.blurRadius d.kernel (create_label r "default" d)).2
    rw [hc, hd]

/-- Witness for C10 at the unsupported kind string "hexagon". -/
theorem c10_unknown_shape_falls_back_witness :
    "hexagon" ∉ supportedShapes ∧
    create_label 1 "hexagon" sampleDraws =
      createDefaultDrop 1 sampleDraws (zerosMask (1 * 5) (1 * 4)) :=
  ⟨by decide,
    (c10_unknown_shape_falls_back 0 none 1 "hexagon" sampleDraws (by decide)).1⟩

/-- C5: when the lens-style warp raises (fisheye outcome `none`),
updateTexture still totally produces an RGBA texture tile whose dimensions
equal the alphaMask dimensions, built from the unwarped Gaussian-blurred
background patch (resized when its shape differs from the alpha mask) with
the uint8 alpha mask as fourth channel, flipped top-bottom. -/
theorem c5_warp_failure_fallback (dr : Droplet) (k : ℤ → ℤ → ℚ) (bg : Img3) :
    ∃ t : Img4,
      (updateTexture dr k bg none).texture = some t ∧
      t.rows = dr.alphamap.rows ∧ t.cols = dr.alphamap.cols ∧
      (∀ i j,
        t.data i j =
          (let fg := gaussianBlur3 5 k (npUint8Img3 bg)
           let fis2 := if fg.rows = dr.alphamap.rows ∧ fg.cols = dr.alphamap.cols
             then fg else cvResize fg dr.alphamap.cols dr.alphamap.rows
           ((fis2.data (dr.alphamap.rows - 1 - i) j).1,
            (fis2.data (dr.alphamap.rows - 1 - i) j).2.1,
            (fis2.data (dr.alphamap.rows - 1 - i) j).2.2,
            ((npUint8 (dr.alphamap.data (dr.alphamap.rows - 1 - i) j) : ℕ) : ℚ)))) :=
  ⟨_, rfl, rfl, rfl, fun i j => rfl⟩

/- Pointwise characterizations of the splash and oval drawings. -/

theorem cvCircle_zeros_data_eq_128 (rows cols : ℕ) (cx cy : ℤ) (R : ℕ)
    (i j : ℕ) :
    ((cvCircle (zerosMask rows cols) cx cy R 128).data i j = 128) ↔
      ((j : ℤ) - cx) ^ 2 + ((i : ℤ) - cy) ^ 2 ≤ (R : ℤ) ^ 2 := by
  unfold cvCircle zerosMask
  dsimp only
  split
  case isTrue h => exact iff_of_true rfl h
  case isFalse h =>
    constructor
    · intro h0
      exact absurd h0 (by norm_num)
    · intro hc
      exact absurd hc h

theorem splashStep_data_eq_128 (r : ℕ) (m : Mask) (s : SatDraw) (i j : ℕ) :
    ((splashStep r m s).data i j = 128) ↔
      ((0 ≤ satX r s ∧ satX r s < (m.cols : ℤ) ∧
        0 ≤ satY r s ∧ satY r s < (m.rows : ℤ)) ∧
       ((j : ℤ) - satX r s) ^ 2 + ((i : ℤ) - satY r s) ^ 2 ≤
         (s.satRadius : ℤ) ^ 2) ∨
      m.data i j = 128 := by
  unfold splashStep
  by_cases hb : 0 ≤ satX r s ∧ satX r s < (m.cols : ℤ) ∧
      0 ≤ satY r s ∧ satY r s < (m.rows : ℤ)
  · rw [if_pos hb]
    unfold cvCircle
    dsimp only
    by_cases hd : ((j : ℤ) - satX r s) ^ 2 + ((i : ℤ) - satY r s) ^ 2 ≤
        (s.satRadius : ℤ) ^ 2
    · rw [if_pos hd]
      simp [hb, hd]
    · rw [if_neg hd]
      simp [hd]
  · rw [if_neg hb]
    simp [hb]

theorem splash_fold_data_eq_128 (r : ℕ) :
    ∀ (sats : List SatDraw) (m : Mask) (i j : ℕ),
      ((sats.foldl (splashStep r) m).data i j = 128) ↔
        (m.data i j = 128 ∨ ∃ s ∈ sats,
          (0 ≤ satX r s ∧ satX r s < (m.cols : ℤ) ∧
           0 ≤ satY r s ∧ satY r s < (m.rows : ℤ)) ∧
          ((j : ℤ) - satX r s) ^ 2 + ((i : ℤ) - satY r s) ^ 2 ≤
            (s.satRadius : ℤ) ^ 2) := by
  intro sats
  induction sats with
  | nil =>
    intro m i j
    simp
  | cons s rest ih =>
    intro m i j
    rw [List.foldl_cons, ih (splashStep r m s) i j, splashStep_data_eq_128,
      splashStep_rows, splashStep_cols]
    simp only [List.mem_cons]
    constructor
    · rintro ((hP | hm) | ⟨s2, hs2, hP2⟩)
      · exact Or.inr ⟨s, Or.inl rfl, hP⟩
      · exact Or.inl hm
      · exact Or.inr ⟨s2, Or.inr hs2, hP2⟩
    · rintro (hm | ⟨s2, hs2, hP2⟩)
      · exact Or.inl (Or.inr hm)
      · rcases hs2 with rfl | hs2
        · exact Or.inl (Or.inl hP2)
        · exact Or.inr ⟨s2, hs2, hP2⟩

theorem cvEllipse_full_zeros_data_eq_128 (rows cols : ℕ) (cx cy a b : ℤ)
    (c s : ℚ) (i j : ℕ) :
    ((cvEllipse (zerosMask rows cols) cx cy a b c s true 128).data i j = 128) ↔
      (((j : ℚ) - (cx : ℚ)) * c + ((i : ℚ) - (cy : ℚ)) * s) ^ 2 * (b : ℚ) ^ 2 +
        (-((j : ℚ) - (cx : ℚ)) * s + ((i : ℚ) - (cy : ℚ)) * c) ^ 2 * (a : ℚ) ^ 2 ≤
        ((a : ℚ) * (b : ℚ)) ^ 2 := by
  unfold cvEllipse zerosMask
  dsimp only
  split
  case isTrue h => exact iff_of_true rfl h.1
  case isFalse h =>
    constructor
    · intro h0
      exact absurd h0 (by norm_num)
    · intro hc
      exact absurd ⟨hc, Or.inl rfl⟩ h

/-- C6 (amended): the splash rasterizer draws one filled circle of radius
int(0.7 r) at (2r, 2r) plus 2 to 5 satellite circles with integer radii
drawn uniformly from [r // 4, r // 2]; a satellite is skipped exactly when
its center falls outside the 5r x 4r mask bounds, and a satellite whose
center is in bounds is drawn (clipped) even when the circle extends beyond
the mask: a pre-binarization pixel holds 128 exactly when it lies in the
main circle or in a satellite circle with in-bounds center. -/
theorem c6_splash_amended (r : ℕ) (d : Draws) (hv : validSplashDraws r d) :
    2 ≤ d.sats.length ∧ d.sats.length ≤ 5 ∧
    (∀ s ∈ d.sats, r / 4 ≤ s.satRadius ∧ s.satRadius ≤ r / 2) ∧
    ∀ i j,
      ((createSplashDrop r d (zerosMask (r * 5) (r * 4))).data i j = 128 ↔
        (((j : ℤ) - 2 * r) ^ 2 + ((i : ℤ) - 2 * r) ^ 2 ≤
            (splashMainRadius r : ℤ) ^ 2 ∨
         ∃ s ∈ d.sats,
           (0 ≤ satX r s ∧ satX r s < ((r * 4 : ℕ) : ℤ) ∧
            0 ≤ satY r s ∧ satY r s < ((r * 5 : ℕ) : ℤ)) ∧
           ((j : ℤ) - satX r s) ^ 2 + ((i : ℤ) - satY r s) ^ 2 ≤
             (s.satRadius : ℤ) ^ 2)) := by
  refine ⟨hv.1, hv.2.1,
    fun s hs => ⟨(hv.2.2 s hs).2.2.2.1, (hv.2.2 s hs).2.2.2.2⟩, ?_⟩
  intro i j
  unfold createSplashDrop
  rw [splash_fold_data_eq_128, cvCircle_zeros_data_eq_128]
  exact Iff.rfl

/-- Witness for C6 (amended) at radius 1. -/
theorem c6_splash_amended_witness :
    validSplashDraws 1 sampleDraws ∧ 2 ≤ sampleDraws.sats.length :=
  ⟨by norm_num [validSplashDraws, validSatDraw, sampleDraws, splashMainRadius],
   (c6_splash_amended 1 sampleDraws
     (by norm_num [validSplashDraws, validSatDraw, sampleDraws,
       splashMainRadius])).1⟩

/-- The concrete splash draws of the C6 counterexample: radius 8, two
identical satellites at angle 0 (cosine 1, sine 0), distance 12 and
satellite radius 4, all within the randint bounds of the source. -/
def splashCE : Draws :=
  { sampleDraws with sats := [⟨1, 0, 12, 4⟩, ⟨1, 0, 12, 4⟩] }

/-- Counterexample to C6 as stated: with radius 8 the mask is 40 x 32; the
drawn satellite has center (28, 16) (in bounds) and radius 4, so it extends
to column 32, outside the mask, yet it is drawn rather than skipped: the
label pixel at row 16, column 28 is 1 although it lies outside the main
circle, refuting that no satellite is drawn extending outside the mask. -/
theorem c6_counterexample :
    validSplashDraws 8 splashCE ∧
    satX 8 ⟨1, 0, 12, 4⟩ = 28 ∧ satY 8 ⟨1, 0, 12, 4⟩ = 16 ∧
    satX 8 ⟨1, 0, 12, 4⟩ + 4 ≥ 32 ∧
    ((28 : ℤ) - 16) ^ 2 + ((16 : ℤ) - 16) ^ 2 > (splashMainRadius 8 : ℤ) ^ 2 ∧
    (mkDropletProcedural 0 none 8 "splash" splashCE).labelmap.data 16 28 = 1 := by
  have hx : satX 8 ⟨1, 0, 12, 4⟩ = 28 := by
    norm_num [satX, pyInt]
  have hy : satY 8 ⟨1, 0, 12, 4⟩ = 16 := by
    norm_num [satY, pyInt]
  have hcl : create_label 8 "splash" splashCE =
      createSplashDrop 8 splashCE (zerosMask (8 * 5) (8 * 4)) := by
    unfold create_label
    dsimp only
    rw [if_neg (by decide), if_neg (by decide), if_neg (by decide),
      if_neg (by decide), if_neg (by decide), if_pos rfl]
  have h128 : (create_label 8 "splash" splashCE).data 16 28 = 128 := by
    rw [hcl]
    unfold createSplashDrop
    rw [splash_fold_data_eq_128]
    refine Or.inr ⟨⟨1, 0, 12, 4⟩, List.mem_cons_self _ _, ?_, ?_⟩
    · rw [hx, hy]
      refine ⟨by decide, ?_, by decide, ?_⟩
      · show (28 : ℤ) <
          ((cvCircle (zerosMask (8 * 5) (8 * 4)) (2 * 8) (2 * 8)
            (splashMainRadius 8) 128).cols : ℤ)
        decide
      · show (16 : ℤ) <
          ((cvCircle (zerosMask (8 * 5) (8 * 4)) (2 * 8) (2 * 8)
            (splashMainRadius 8) 128).rows : ℤ)
        decide
    · rw [hx, hy]
      decide
  refine ⟨?_, hx, hy, by rw [hx]; decide, by decide, ?_⟩
  · norm_num [validSplashDraws, validSatDraw, splashCE, sampleDraws,
      splashMainRadius]
  · show (binarizeLabel (create_label 8 "splash" splashCE)).data 16 28 = 1
    unfold binarizeLabel
    dsimp only
    rw [h128]
    norm_num

/-- C7 (amended): the oval rasterizer fills, on the all-zero 5r x 4r mask,
exactly one full ellipse centered at (2r, 2r) with one axis r and the
other int(r * a), where a is drawn uniformly from [1.2, 2.0] and the
rotation angle is an integer drawn uniformly from the inclusive range
[0, 180] (a pixel holds 128 exactly when it lies inside that rotated
ellipse). -/
theorem c7_oval_amended (r : ℕ) (d : Draws) (hv : validOvalDraws d) :
    d.ovalAngle ≤ 180 ∧
    (6 / 5 ≤ d.ovalAspect ∧ d.ovalAspect ≤ 2) ∧
    createOvalDrop r d (zerosMask (r * 5) (r * 4)) =
      cvEllipse (zerosMask (r * 5) (r * 4)) (2 * r) (2 * r) (r : ℤ)
        (pyInt ((r : ℚ) * d.ovalAspect)) d.ovalCos d.ovalSin true 128 ∧
    ∀ i j,
      ((createOvalDrop r d (zerosMask (r * 5) (r * 4))).data i j = 128 ↔
        (((j : ℚ) - ((2 * (r : ℤ) : ℤ) : ℚ)) * d.ovalCos +
            ((i : ℚ) - ((2 * (r : ℤ) : ℤ) : ℚ)) * d.ovalSin) ^ 2 *
            ((pyInt ((r : ℚ) * d.ovalAspect) : ℚ)) ^ 2 +
          (-((j : ℚ) - ((2 * (r : ℤ) : ℤ) : ℚ)) * d.ovalSin +
            ((i : ℚ) - ((2 * (r : ℤ) : ℤ) : ℚ)) * d.ovalCos) ^ 2 *
            (((r : ℤ) : ℚ)) ^ 2 ≤
          (((r : ℤ) : ℚ) * (pyInt ((r : ℚ) * d.ovalAspect) : ℚ)) ^ 2) := by
  refine ⟨hv.1, ⟨hv.2.2.1, hv.2.2.2⟩, rfl, ?_⟩
  intro i j
  exact cvEllipse_full_zeros_data_eq_128 (r * 5) (r * 4) (2 * r) (2 * r)
    (r : ℤ) (pyInt ((r : ℚ) * d.ovalAspect)) d.ovalCos d.ovalSin i j

/-- Witness for C7 (amended) at radius 1 and angle 0. -/
theorem c7_oval_amended_witness :
    validOvalDraws sampleDraws ∧ sampleDraws.ovalAngle ≤ 180 :=
  ⟨by norm_num [validOvalDraws, sampleDraws],
   (c7_oval_amended 1 sampleDraws
     (by norm_num [validOvalDraws, sampleDraws])).1⟩

/-- The concrete oval draws of the C7 counterexample: the angle draw 180
with its exact cosine -1 and sine 0, and aspect ratio 3/2. -/
def ovalCE : Draws :=
  { sampleDraws with ovalAngle := 180, ovalCos := -1, ovalSin := 0 }

/-- Counterexample to C7 as stated: random.randint(0, 180) can return the
integer 180, which the half-open real interval [0, 180) excludes, and for
radius 5 and aspect 3/2 the second axis is int(5 * 3/2) = 7, not the real
5 * 3/2, so the other axis is not r times the drawn aspect. -/
theorem c7_counterexample :
    validOvalDraws ovalCE ∧
    ovalCE.ovalAngle = 180 ∧
    ¬(ovalCE.ovalAngle < 180) ∧
    pyInt ((5 : ℚ) * ovalCE.ovalAspect) = 7 ∧
    ((pyInt ((5 : ℚ) * ovalCE.ovalAspect) : ℚ) ≠ (5 : ℚ) * ovalCE.ovalAspect) := by
  have h7 : pyInt ((5 : ℚ) * ovalCE.ovalAspect) = 7 := by
    norm_num [ovalCE, sampleDraws, pyInt]
  refine ⟨?_, by decide, by decide, h7, ?_⟩
  · norm_num [validOvalDraws, ovalCE, sampleDraws]
  · rw [h7]
    norm_num [ovalCE, sampleDraws]
